import Mathlib

/-
  Verification of the mpkube CLI (a Go wrapper around the multipass VM tool).

  Shallow embedding conventions:
  - Go strings are modelled as `List Char` (`GoString`); the Go functions `strings.Split`,
    `strings.TrimSpace`, `strings.HasPrefix`, `strings.Contains`, `strings.ToLower`
    become the corresponding list functions below.
  - Subprocess invocations are modelled by passing their observable results
    (captured output, exit status) as explicit parameters, or by oracle
    functions packaged in an environment structure.
  - A Go runtime panic (out-of-range slice index) is modelled by `Option`:
    `none` means the surrounding function panics instead of returning.
-/

-- ## Go string primitives

abbrev GoString := List Char

def gs (s : String) : GoString := s.data

/-- The whitespace set of the Go function `strings.TrimSpace` (ASCII part; the claims under
study only involve ASCII data). -/
def goIsSpace (c : Char) : Bool :=
  c == ' ' || c == '\t' || c == '\n' || c == '\x0b' || c == '\x0c' || c == '\r'

/-- Go `strings.TrimSpace`: drop whitespace from both ends. -/
def goTrimSpace (s : GoString) : GoString :=
  ((s.dropWhile goIsSpace).reverse.dropWhile goIsSpace).reverse

/-- Go `strings.ToLower` (ASCII part). -/
def goToLower (s : GoString) : GoString := s.map Char.toLower

/-- Go `strings.HasPrefix s pre`. -/
def goStartsWith (s pre : GoString) : Bool := pre.isPrefixOf s

/-- Go `strings.Contains s sub`: some contiguous run of `s` equals `sub`. -/
def goContains (s sub : GoString) : Bool :=
  if sub.isPrefixOf s then true
  else
    match s with
    | [] => false
    | _ :: t => goContains t sub

/-- Go `strings.Split` with a one-character separator. -/
def goSplit (s : GoString) (sep : Char) : List GoString := s.splitOn sep

-- ## VM inventory (pkg/multipass/multipass.go)

/-- The `VM` record of `pkg/multipass`. -/
structure VM where
  Name : GoString
  State : GoString
  IPv4 : GoString
  Image : GoString
  IsK3s : Bool
deriving DecidableEq, Repr

/-- The loop body of `parseMultipassList` over the data rows (everything after
the header line).  The Go code guards with `len(parts) < 4` and then reads
`parts[4]`; reading `parts[4]` on a row with exactly 4 fields is an
out-of-range panic, modelled as `none`. -/
def parseListRows : List GoString → Option (List VM)
  | [] => some []
  | line :: rest =>
    let parts := goSplit line ','
    if parts.length < 4 then parseListRows rest
    else
      match parts[4]? with
      | none => none
      | some image =>
        let vm : VM :=
          { Name := goTrimSpace (parts.getD 0 [])
            State := goTrimSpace (parts.getD 1 [])
            IPv4 := goTrimSpace (parts.getD 2 [])
            Image := goTrimSpace image
            IsK3s := goStartsWith (goTrimSpace (parts.getD 0 [])) (gs "mpkube-") }
        (parseListRows rest).map (vm :: ·)

/-- Function `parseMultipassList` of `pkg/multipass`: trim the whole output, split on
newlines, drop the header line, parse each remaining row. -/
def parseMultipassList (output : GoString) : Option (List VM) :=
  let lines := goSplit (goTrimSpace output) '\n'
  if lines.length ≤ 1 then some []
  else parseListRows (lines.drop 1)

/-- Claim C1: the spec says a data row with fewer than 5 comma-separated fields
is silently skipped and the parse never errors or crashes.  The code only
guards `len(parts) < 4` and then indexes `parts[4]`, so a row with exactly 4
fields makes the whole parse panic (index out of range), here `none`. -/
theorem parseMultipassList_crashes_on_four_field_row :
    parseMultipassList (gs "Name,State,IPv4,Release\nvm1,Running,10.0.0.1,24.04") = none := by
  rfl

-- ## Environment resolver (pkg/multipass/multipass.go)

/-- Observable results of the probes the resolver performs, packaged as an
environment of oracles: `lookPathOk p` is whether `exec.LookPath p` succeeds,
`statOk p` is whether `os.Stat p` succeeds, `wslListOut` is the decoded output
of `wsl -l -q` (or `none` if that command fails), `distroLive d` is whether
`wsl -d d true` exits cleanly, and `whichMultipassOk d` is whether
`wsl -d d --shell-type login which multipass` exits cleanly. -/
structure SysEnv where
  lookPathOk : GoString → Bool
  statOk : GoString → Bool
  wslListOut : Option GoString
  distroLive : GoString → Bool
  whichMultipassOk : GoString → Bool

/-- Cleaning applied to each line of the distro listing: remove carriage
returns, trim whitespace (`strings.TrimSpace(strings.ReplaceAll(d, "\r", ""))`). -/
def cleanDistro (d : GoString) : GoString :=
  goTrimSpace (d.filter (fun c => !(c == '\r')))

/-- The scan loop of `checkWSLAvailable`: the first line whose cleaned name is
non-empty and answers the liveness probe is returned; a live check is the ONLY
filter applied inside the loop. -/
def findLiveDistro (live : GoString → Bool) : List GoString → Option GoString
  | [] => none
  | d :: rest =>
    let c := cleanDistro d
    if !c.isEmpty && live c then some c
    else findLiveDistro live rest

/-- Function `checkWSLAvailable`: requires the `wsl` command on PATH, lists the
distributions, and returns the first live one. -/
def checkWSLAvailable (env : SysEnv) : GoString × Bool :=
  if !(env.lookPathOk (gs "wsl")) then ([], false)
  else
    match env.wslListOut with
    | none => ([], false)
    | some out =>
      let distros := goSplit out '\n'
      if distros.length = 0 then ([], false)
      else
        match findLiveDistro env.distroLive distros with
        | some d => (d, true)
        | none => ([], false)

/-- The fixed native-Windows candidate paths probed by `getMultipassCmd`. -/
def winPaths : List GoString :=
  [gs "C:\\Program Files\\Multipass\\bin\\multipass.exe", gs "multipass.exe"]

/-- The fixed Windows-side paths probed from inside WSL by `getMultipassCmd`. -/
def wslWinPaths : List GoString :=
  [gs "/mnt/c/Program Files/Multipass/bin/multipass.exe",
   gs "/mnt/c/Windows/System32/multipass.exe"]

/-- Function `getMultipassCmd`: returns `(command, useWSLMultipass, wslDistro)` or an
error message, following the three-way branch on `isWindows` / `isWSL`. -/
def getMultipassCmd (env : SysEnv) (isWSL isWindows : Bool) :
    Except GoString (GoString × Bool × GoString) :=
  if isWindows then
    match winPaths.find? env.lookPathOk with
    | some path => .ok (path, false, [])
    | none =>
      match checkWSLAvailable env with
      | (wslDistro, true) =>
        if env.whichMultipassOk wslDistro then .ok (gs "multipass", true, wslDistro)
        else .error (gs "multipass not found in Windows or WSL")
      | (_, false) => .error (gs "multipass not found in Windows or WSL")
  else if isWSL then
    match wslWinPaths.find? env.statOk with
    | some path => .ok (path, false, [])
    | none =>
      if env.lookPathOk (gs "multipass") then .ok (gs "multipass", false, [])
      else .error (gs "multipass not found in WSL or Windows path")
  else
    if env.lookPathOk (gs "multipass") then .ok (gs "multipass", false, [])
    else .error (gs "multipass command not found")

/-- Environment refuting claim C2: native Windows, no native multipass, two WSL
distros `d1` and `d2`; both answer the liveness probe but only `d2` has
multipass on its PATH. -/
def cexEnv : SysEnv where
  lookPathOk := fun s => s == gs "wsl"
  statOk := fun _ => false
  wslListOut := some (gs "d1\r\nd2\r\n")
  distroLive := fun d => d == gs "d1" || d == gs "d2"
  whichMultipassOk := fun d => d == gs "d2"

/-- Claim C2 counterexample: `d2` is enumerated, live, and has multipass, so
under the claim the resolver would select it; the code instead stops at the
first live distro `d1`, finds multipass missing there, and fails outright. -/
theorem getMultipassCmd_skips_tool_check_cex :
    getMultipassCmd cexEnv false true = .error (gs "multipass not found in Windows or WSL")
    ∧ (goSplit (gs "d1\r\nd2\r\n") '\n').map cleanDistro = [gs "d1", gs "d2", gs ""]
    ∧ cexEnv.distroLive (gs "d2") = true
    ∧ cexEnv.whichMultipassOk (gs "d2") = true := by
  exact ⟨rfl, rfl, rfl, rfl⟩

/-- Claim C2 (amended): with no native Windows multipass, the resolver takes
the FIRST live distribution found by `checkWSLAvailable` (the tool presence
plays no part in that choice) and then requires multipass on that single
PATH of that distribution; if it is missing there, resolution fails — later live
distributions are never consulted. -/
theorem getMultipassCmd_uses_first_live_distro (env : SysEnv) (d : GoString)
    (h1 : env.lookPathOk (gs "C:\\Program Files\\Multipass\\bin\\multipass.exe") = false)
    (h2 : env.lookPathOk (gs "multipass.exe") = false)
    (h3 : checkWSLAvailable env = (d, true)) :
    getMultipassCmd env false true =
      if env.whichMultipassOk d then .ok (gs "multipass", true, d)
      else .error (gs "multipass not found in Windows or WSL") := by
  unfold getMultipassCmd winPaths
  simp only [List.find?, h1, h2, h3, if_true, if_false]

/-- Environment for the C2 witness: one live WSL distro `ubu` with multipass. -/
def bridgeEnv : SysEnv where
  lookPathOk := fun s => s == gs "wsl"
  statOk := fun _ => false
  wslListOut := some (gs "ubu\n")
  distroLive := fun d => d == gs "ubu"
  whichMultipassOk := fun d => d == gs "ubu"

/-- Witness for the amended claim C2 at a concrete environment. -/
theorem getMultipassCmd_uses_first_live_distro_witness :
    getMultipassCmd bridgeEnv false true = .ok (gs "multipass", true, gs "ubu") := by
  have h := getMultipassCmd_uses_first_live_distro bridgeEnv (gs "ubu") rfl rfl rfl
  rw [h]
  rfl

-- ## Kubeconfig merge (pkg/k3s/k3s.go)

/-- The slice of `clientcmd/api.Config` that `mergeConfig` manipulates.  The
four collections are maps from name to an entry whose contents the merge never
inspects, so the entry types are type parameters `V` (collection payloads) and
`P` (the `Preferences` struct).  Go maps are modelled as association lists
with `lookupEntry` giving the map semantics. -/
structure KubeConfig (V P : Type) where
  Clusters : List (GoString × V)
  AuthInfos : List (GoString × V)
  Contexts : List (GoString × V)
  Extensions : List (GoString × V)
  CurrentContext : GoString
  Preferences : P
deriving DecidableEq

/-- Map lookup on an association list (first binding wins, as in a Go map
where keys are unique). -/
def lookupEntry {V : Type} : List (GoString × V) → GoString → Option V
  | [], _ => none
  | (k', v) :: rest, k => if k' = k then some v else lookupEntry rest k

/-- One `for k, v := range b { if _, ok := ret[k]; !ok { ret[k] = v } }` loop
of `mergeConfig`: insert each binding of `b` into `a` unless the key is
already present. -/
def mergeEntries {V : Type} (a b : List (GoString × V)) : List (GoString × V) :=
  b.foldl
    (fun ret kv =>
      match lookupEntry ret kv.1 with
      | some _ => ret
      | none => ret ++ [kv])
    a

/-- Function `mergeConfig a b`: insert-if-absent on the four collections, keep
`a.CurrentContext` unless it is empty, always take `b.Preferences`. -/
def mergeConfig {V P : Type} (a b : KubeConfig V P) : KubeConfig V P where
  Clusters := mergeEntries a.Clusters b.Clusters
  AuthInfos := mergeEntries a.AuthInfos b.AuthInfos
  Contexts := mergeEntries a.Contexts b.Contexts
  Extensions := mergeEntries a.Extensions b.Extensions
  CurrentContext := if a.CurrentContext = [] then b.CurrentContext else a.CurrentContext
  Preferences := b.Preferences

/-- Function `api.NewConfig()`: empty collections, empty current context, zero-value
preferences (`default` stands for the Go zero value of the struct). -/
def newConfig {V P : Type} [Inhabited P] : KubeConfig V P where
  Clusters := []
  AuthInfos := []
  Contexts := []
  Extensions := []
  CurrentContext := []
  Preferences := default

inductive MergeErr
  | emptyInput
deriving DecidableEq

/-- Function `MergeKubeconfigs`: fail on an empty input sequence, otherwise fold the
documents left-to-right into `api.NewConfig()` with `mergeConfig`.  (The
surrounding YAML decode/encode of the Go function belongs to the external
client-go library; the documents arrive here already structured.) -/
def MergeKubeconfigs {V P : Type} [Inhabited P] (docs : List (KubeConfig V P)) :
    Except MergeErr (KubeConfig V P) :=
  if docs.isEmpty then .error .emptyInput
  else .ok (docs.foldl mergeConfig newConfig)

-- ### Lookup lemmas for the merge

theorem lookupEntry_append {V : Type} (a b : List (GoString × V)) (k : GoString) :
    lookupEntry (a ++ b) k = (lookupEntry a k <|> lookupEntry b k) := by
  induction a with
  | nil => rfl
  | cons kv rest ih =>
    obtain ⟨k', v⟩ := kv
    by_cases h : k' = k <;> simp [lookupEntry, h, ih]

theorem opt_orElse_assoc {V : Type} (a b c : Option V) :
    ((a <|> b) <|> c) = (a <|> (b <|> c)) := by
  cases a <;> rfl

/-- The map produced by one `mergeEntries` pass is the key-wise first-wins
union of its two arguments. -/
theorem lookupEntry_mergeEntries {V : Type} (b a : List (GoString × V)) (k : GoString) :
    lookupEntry (mergeEntries a b) k = (lookupEntry a k <|> lookupEntry b k) := by
  induction b generalizing a with
  | nil =>
    simp only [mergeEntries, List.foldl_nil]
    cases lookupEntry a k <;> rfl
  | cons kv rest ih =>
    obtain ⟨k', v⟩ := kv
    show lookupEntry (mergeEntries _ rest) k = _
    rw [ih]
    cases hak : lookupEntry a k' with
    | some w =>
      simp only [hak]
      by_cases hk : k' = k
      · subst hk
        simp [lookupEntry, hak]
      · simp [lookupEntry, hk]
    | none =>
      simp only [hak, lookupEntry_append, opt_orElse_assoc]
      by_cases hk : k' = k
      · subst hk
        simp [lookupEntry, hak]
      · simp [lookupEntry, hk]

/-- Projecting one collection out of the fold: the fold acts on each of the
four collections independently, via `mergeEntries`. -/
theorem lookupEntry_foldl_field {V P : Type} (proj : KubeConfig V P → List (GoString × V))
    (hproj : ∀ a b, proj (mergeConfig a b) = mergeEntries (proj a) (proj b))
    (docs : List (KubeConfig V P)) (acc : KubeConfig V P) (k : GoString) :
    lookupEntry (proj (docs.foldl mergeConfig acc)) k
      = (lookupEntry (proj acc) k <|> docs.findSome? (fun d => lookupEntry (proj d) k)) := by
  induction docs generalizing acc with
  | nil =>
    simp only [List.foldl_nil, List.findSome?_nil]
    cases lookupEntry (proj acc) k <;> rfl
  | cons d rest ih =>
    rw [List.foldl_cons, ih, hproj, lookupEntry_mergeEntries, opt_orElse_assoc]
    congr 1
    cases h : lookupEntry (proj d) k <;> simp [List.findSome?_cons, h]

/-- A successful `MergeKubeconfigs` run is the left fold from the fresh config. -/
theorem mergeKubeconfigs_ok_eq {V P : Type} [Inhabited P] {docs : List (KubeConfig V P)}
    {merged : KubeConfig V P} (h : MergeKubeconfigs docs = .ok merged) :
    merged = docs.foldl mergeConfig newConfig := by
  unfold MergeKubeconfigs at h
  by_cases hd : docs.isEmpty <;> simp [hd] at h
  exact h.symm

/-- Claim C3: merging a non-empty sequence of documents folds left-to-right
and, in each of the four collections, a key already present in the accumulator
is never overwritten: the result at every key is the entry of the FIRST
document carrying that key (key-wise union, first-occurrence-wins). -/
theorem merge_first_wins {V P : Type} [Inhabited P] (docs : List (KubeConfig V P))
    (merged : KubeConfig V P) (h : MergeKubeconfigs docs = .ok merged) (k : GoString) :
    lookupEntry merged.Clusters k = docs.findSome? (fun d => lookupEntry d.Clusters k)
    ∧ lookupEntry merged.AuthInfos k = docs.findSome? (fun d => lookupEntry d.AuthInfos k)
    ∧ lookupEntry merged.Contexts k = docs.findSome? (fun d => lookupEntry d.Contexts k)
    ∧ lookupEntry merged.Extensions k = docs.findSome? (fun d => lookupEntry d.Extensions k) := by
  rw [mergeKubeconfigs_ok_eq h]
  refine ⟨?_, ?_, ?_, ?_⟩
  · rw [lookupEntry_foldl_field (fun c => c.Clusters) (fun a b => rfl)]; rfl
  · rw [lookupEntry_foldl_field (fun c => c.AuthInfos) (fun a b => rfl)]; rfl
  · rw [lookupEntry_foldl_field (fun c => c.Contexts) (fun a b => rfl)]; rfl
  · rw [lookupEntry_foldl_field (fun c => c.Extensions) (fun a b => rfl)]; rfl

/-- The first document of the merge example in the spec: clusters maps a to 1. -/
def docA : KubeConfig Nat Nat where
  Clusters := [(gs "a", 1)]
  AuthInfos := []
  Contexts := []
  Extensions := []
  CurrentContext := []
  Preferences := 0

/-- The second document of the merge example in the spec: clusters maps a to 2 and b to 2. -/
def docB : KubeConfig Nat Nat where
  Clusters := [(gs "a", 2), (gs "b", 2)]
  AuthInfos := []
  Contexts := []
  Extensions := []
  CurrentContext := []
  Preferences := 0

/-- The merged result of the example in the spec: clusters maps a to 1 and b to 2. -/
def mergedAB : KubeConfig Nat Nat where
  Clusters := [(gs "a", 1), (gs "b", 2)]
  AuthInfos := []
  Contexts := []
  Extensions := []
  CurrentContext := []
  Preferences := 0

/-- Witness for claim C3 at the example given in the spec. -/
theorem merge_first_wins_witness :
    lookupEntry mergedAB.Clusters (gs "a") = some 1
    ∧ lookupEntry mergedAB.Clusters (gs "b") = some 2 := by
  have ha := merge_first_wins [docA, docB] mergedAB (by rfl) (gs "a")
  have hb := merge_first_wins [docA, docB] mergedAB (by rfl) (gs "b")
  exact ⟨ha.1.trans (by rfl), hb.1.trans (by rfl)⟩

/-- Claim C4: `MergeKubeconfigs` applied to an empty sequence of documents
fails with the Empty error and produces no merged document. -/
theorem merge_empty_fails {V P : Type} [Inhabited P] :
    MergeKubeconfigs ([] : List (KubeConfig V P)) = .error .emptyInput := rfl

/-- Witness for claim C4 at concrete entry types. -/
theorem merge_empty_fails_witness :
    MergeKubeconfigs ([] : List (KubeConfig Nat Nat)) = .error .emptyInput :=
  merge_empty_fails

/-- Field `Preferences` of the fold is the `Preferences` of the last document
(or of the accumulator when there is none). -/
theorem foldl_mergeConfig_Preferences {V P : Type} (docs : List (KubeConfig V P))
    (acc : KubeConfig V P) :
    (docs.foldl mergeConfig acc).Preferences
      = (docs.getLast?.map (fun d => d.Preferences)).getD acc.Preferences := by
  induction docs generalizing acc with
  | nil => rfl
  | cons d rest ih =>
    rw [List.foldl_cons, ih]
    cases rest with
    | nil => rfl
    | cons e tail =>
      rw [List.getLast?_cons_cons]
      cases h : (e :: tail).getLast? with
      | none => simp [List.getLast?_eq_none_iff] at h
      | some x => rfl

/-- Field `CurrentContext` of the fold: kept once non-empty, otherwise the first
non-empty `CurrentContext` among the documents (empty if none). -/
theorem foldl_mergeConfig_CurrentContext {V P : Type} (docs : List (KubeConfig V P))
    (acc : KubeConfig V P) :
    (docs.foldl mergeConfig acc).CurrentContext
      = if acc.CurrentContext = [] then
          (docs.findSome? fun d =>
            if d.CurrentContext = [] then none else some d.CurrentContext).getD []
        else acc.CurrentContext := by
  induction docs generalizing acc with
  | nil => by_cases h : acc.CurrentContext = [] <;> simp [h]
  | cons d rest ih =>
    rw [List.foldl_cons, ih]
    by_cases hacc : acc.CurrentContext = []
    · by_cases hd : d.CurrentContext = []
      · have hm : (mergeConfig acc d).CurrentContext = [] := by
          simp [mergeConfig, hacc, hd]
        simp [hm, hacc, List.findSome?_cons, hd]
      · have hm : (mergeConfig acc d).CurrentContext = d.CurrentContext := by
          simp [mergeConfig, hacc]
        simp [hm, hacc, hd, List.findSome?_cons]
    · have hm : (mergeConfig acc d).CurrentContext = acc.CurrentContext := by
        simp [mergeConfig, hacc]
      simp [hm, hacc]

/-- Claim C8: in a successful merge the `Preferences` scalar equals that of
the LAST document (last-wins, unlike every other merged field) and the
`CurrentContext` scalar is that of the first document with a non-empty value
(empty when no document has one). -/
theorem merge_scalars {V P : Type} [Inhabited P] (docs : List (KubeConfig V P))
    (merged : KubeConfig V P) (h : MergeKubeconfigs docs = .ok merged) :
    (∀ lastDoc, docs.getLast? = some lastDoc → merged.Preferences = lastDoc.Preferences)
    ∧ merged.CurrentContext
        = (docs.findSome? fun d =>
            if d.CurrentContext = [] then none else some d.CurrentContext).getD [] := by
  rw [mergeKubeconfigs_ok_eq h]
  constructor
  · intro lastDoc hl
    rw [foldl_mergeConfig_Preferences, hl]
    rfl
  · rw [foldl_mergeConfig_CurrentContext]
    simp [newConfig]

/-- First document of the C8 witness: empty current context, preferences 1. -/
def docP1 : KubeConfig Nat Nat where
  Clusters := []
  AuthInfos := []
  Contexts := []
  Extensions := []
  CurrentContext := []
  Preferences := 1

/-- Second document of the C8 witness: current context "ctx", preferences 2. -/
def docP2 : KubeConfig Nat Nat where
  Clusters := []
  AuthInfos := []
  Contexts := []
  Extensions := []
  CurrentContext := gs "ctx"
  Preferences := 2

/-- Merged result of the C8 witness. -/
def mergedP : KubeConfig Nat Nat where
  Clusters := []
  AuthInfos := []
  Contexts := []
  Extensions := []
  CurrentContext := gs "ctx"
  Preferences := 2

/-- Witness for claim C8: preferences follow the last document, current
context follows the first document with a non-empty value. -/
theorem merge_scalars_witness :
    mergedP.Preferences = 2 ∧ mergedP.CurrentContext = gs "ctx" := by
  have h := merge_scalars [docP1, docP2] mergedP (by rfl)
  exact ⟨h.1 docP2 (by rfl), h.2.trans (by rfl)⟩

-- ## Cluster name handling (cmd/create.go, delete and kubeconfig commands)

/-- The inline prefix-ensuring step shared by `createCluster`, `deleteCluster`
and `getKubeconfig`:
prepend the prefix when `strings.HasPrefix(name, "mpkube-")` is false. -/
def ensureClusterName (name : GoString) : GoString :=
  if goStartsWith name (gs "mpkube-") then name
  else gs "mpkube-" ++ name

/-- Claim C5: the ensure-reserved-prefix operation is idempotent — applying it
twice yields the same string as applying it once, for every string. -/
theorem ensureClusterName_idem (s : GoString) :
    ensureClusterName (ensureClusterName s) = ensureClusterName s := by
  unfold ensureClusterName goStartsWith
  by_cases h : (gs "mpkube-").isPrefixOf s
  · simp [h]
  · have hpre : (gs "mpkube-").isPrefixOf (gs "mpkube-" ++ s) := by
      exact List.isPrefixOf_iff_prefix.mpr (List.prefix_append _ _)
    simp [h, hpre]

/-- The short suffix from `strings.Split(uuid.New().String(), "-")[0]`. -/
def shortId (uuidStr : GoString) : GoString := (goSplit uuidStr '-').headD []

/-- The name-resolution step of `createCluster` (cmd/create.go): an explicit
argument wins; with no argument the reserved default name is used when no
managed VM exists, else the fixed prefix plus a fresh short suffix; finally
the reserved prefix is ensured.  `managed` is the `GetK3sVMs()` result and
`uuidStr` the fresh `uuid.New().String()`. -/
def chooseClusterName (arg : GoString) (managed : List VM) (uuidStr : GoString) : GoString :=
  let name :=
    if arg.isEmpty then
      if managed.isEmpty then gs "mpkube-default"
      else gs "mpkube-" ++ shortId uuidStr
    else arg
  ensureClusterName name

/-- Claim C7: with no name argument, the chosen name is the fixed default
`mpkube-default` exactly when no managed VM exists; with at least one managed
VM it is the fixed prefix followed by the fresh short suffix.  The hypothesis
records that the first dash-separated group of a UUID has 8 characters (so the
random suffix can never spell `default`). -/
theorem chooseClusterName_default_iff (managed : List VM) (uuidStr : GoString)
    (h : (shortId uuidStr).length = 8) :
    (chooseClusterName [] managed uuidStr = gs "mpkube-default" ↔ managed = [])
    ∧ (managed ≠ [] →
        chooseClusterName [] managed uuidStr = gs "mpkube-" ++ shortId uuidStr) := by
  cases managed with
  | nil =>
    constructor
    · exact ⟨fun _ => rfl, fun _ => rfl⟩
    · intro hne
      exact absurd rfl hne
  | cons v rest =>
    have hname : chooseClusterName [] (v :: rest) uuidStr = gs "mpkube-" ++ shortId uuidStr := by
      unfold chooseClusterName ensureClusterName goStartsWith
      have hpre : (gs "mpkube-").isPrefixOf (gs "mpkube-" ++ shortId uuidStr) :=
        List.isPrefixOf_iff_prefix.mpr (List.prefix_append _ _)
      simp [hpre]
    constructor
    · constructor
      · intro heq
        rw [hname] at heq
        have hsplit : gs "mpkube-" ++ shortId uuidStr = gs "mpkube-" ++ gs "default" := heq
        have : shortId uuidStr = gs "default" := List.append_cancel_left hsplit
        rw [this] at h
        simp [gs] at h
      · intro hc
        exact absurd hc (List.cons_ne_nil v rest)
    · intro _
      exact hname

/-- A concrete managed VM for witnesses. -/
def vmFoo : VM where
  Name := gs "mpkube-foo"
  State := gs "Running"
  IPv4 := gs "10.0.0.5"
  Image := gs "24.04"
  IsK3s := true

/-- Witness for claim C7 at a concrete UUID string, in both the zero-managed
and one-managed situations. -/
theorem chooseClusterName_default_iff_witness :
    chooseClusterName [] [] (gs "1a2b3c4d-e5f6-7890-abcd-ef0123456789") = gs "mpkube-default"
    ∧ chooseClusterName [] [vmFoo] (gs "1a2b3c4d-e5f6-7890-abcd-ef0123456789")
        = gs "mpkube-1a2b3c4d" := by
  have h0 := chooseClusterName_default_iff [] (gs "1a2b3c4d-e5f6-7890-abcd-ef0123456789") (by rfl)
  have h1 := chooseClusterName_default_iff [vmFoo] (gs "1a2b3c4d-e5f6-7890-abcd-ef0123456789") (by rfl)
  exact ⟨h0.1.mpr rfl, (h1.2 (List.cons_ne_nil _ _)).trans (by rfl)⟩

-- ## VM deletion (pkg/multipass DeleteVM, delete command)

/-- The observable result of one `RunMultipassCmd` call: captured combined
output together with the exit status. -/
inductive CmdResult
  | ok (output : GoString)
  | err (output : GoString)
deriving DecidableEq

/-- Function `DeleteVM` of `pkg/multipass`: run `stop` best-effort (its result is
discarded), then `delete --purge`; on a delete failure whose captured output
contains "does not exist", report success; surface any other failure.
Returns `none` for success or `some message` for the surfaced error. -/
def deleteVMResult (name : GoString) (stopRes delRes : CmdResult) : Option GoString :=
  match stopRes, delRes with
  | _, .ok _ => none
  | _, .err output =>
    if goContains output (gs "does not exist") then none
    else some (gs "failed to delete VM " ++ name ++ gs ": " ++ output)

/-- Claim C6: when the delete-and-purge subprocess fails, `DeleteVM` reports
success exactly when the captured output contains "does not exist"; every
other delete failure is surfaced as an error. -/
theorem deleteVM_does_not_exist_is_success (name : GoString) (stopRes : CmdResult)
    (out : GoString) :
    deleteVMResult name stopRes (.err out) = none
      ↔ goContains out (gs "does not exist") = true := by
  unfold deleteVMResult
  by_cases h : goContains out (gs "does not exist") <;> simp [h]

/-- Function `GetVMByName` without the subprocess step: first record whose name matches
exactly, over an already-parsed inventory. -/
def findVMByName (vms : List VM) (name : GoString) : Option VM :=
  vms.find? (fun vm => vm.Name == name)

/-- The actions `deleteCluster` can trigger through the runner: the inventory
listing of `GetVMByName`, the best-effort `stop`, and `delete --purge`. -/
inductive MpAction
  | listAction
  | stopAction (name : GoString)
  | deleteAction (name : GoString)
deriving DecidableEq

/-- Function `deleteCluster` of the delete command: ensure the reserved prefix, look the VM
up (one `list` subprocess), ask for confirmation unless `force` is set —
cancelling with success if the lowercased, trimmed answer is neither "y" nor
"yes" — then stop and delete-purge via `DeleteVM`.  `vms` is the parsed
inventory, `confirmInput` the line read from standard input, and
`stopRes`/`delRes` the subprocess results `DeleteVM` would observe.  Returns
the final error (or `none`) together with the list of issued actions. -/
def deleteCluster (name₀ : GoString) (force : Bool) (vms : List VM)
    (confirmInput : GoString) (stopRes delRes : CmdResult) :
    Option GoString × List MpAction :=
  let name := ensureClusterName name₀
  match findVMByName vms name with
  | none => (some (gs "cluster not found"), [.listAction])
  | some _vm =>
    if !force
        && !(goTrimSpace (goToLower confirmInput) = gs "y"
             ∨ goTrimSpace (goToLower confirmInput) = gs "yes") then
      (none, [.listAction])
    else
      match deleteVMResult name stopRes delRes with
      | none => (none, [.listAction, .stopAction name, .deleteAction name])
      | some e =>
        (some (gs "failed to delete cluster: " ++ e),
         [.listAction, .stopAction name, .deleteAction name])

/-- Claim C9: without the force flag, if the confirmation answer (lowercased
and trimmed) is neither "y" nor "yes", `deleteCluster` returns success having
issued only the lookup listing — no stop and no delete command. -/
theorem deleteCluster_cancel_is_noop (name : GoString) (vms : List VM)
    (confirmInput : GoString) (stopRes delRes : CmdResult) (vm : VM)
    (hfound : findVMByName vms (ensureClusterName name) = some vm)
    (hy : goTrimSpace (goToLower confirmInput) ≠ gs "y")
    (hyes : goTrimSpace (goToLower confirmInput) ≠ gs "yes") :
    deleteCluster name false vms confirmInput stopRes delRes = (none, [.listAction]) := by
  simp only [deleteCluster, hfound]
  simp [hy, hyes]

/-- Witness for claim C9: answering "n" to the prompt leaves the result
successful and the stop/delete commands unissued, even though the delete
subprocess would have failed. -/
theorem deleteCluster_cancel_is_noop_witness :
    deleteCluster (gs "foo") false [vmFoo] (gs "n\n") (.ok []) (.err (gs "boom"))
      = (none, [.listAction]) :=
  deleteCluster_cancel_is_noop (gs "foo") [vmFoo] (gs "n\n") (.ok []) (.err (gs "boom"))
    vmFoo (by rfl) (by decide) (by decide)

-- ## The kubeconfig merge command (kubeconfig cmd file)

/-- Errors the kubeconfig merge command can surface: its own two guards and a
wrapped failure of `MergeKubeconfigs`. -/
inductive CliErr
  | noClustersFound
  | noKubeconfigs
  | mergeFailed (e : MergeErr)
deriving DecidableEq

/-- Function `mergeKubeconfigs` of the kubeconfig command: list the managed VMs, fail when there
are none; fetch the kubeconfig of each VM, skipping failures with a warning; fail
when every fetch failed; otherwise hand the collected documents to
`MergeKubeconfigs`.  `vms` is the `GetK3sVMs()` result and `fetchConfig`
models `k3s.GetKubeconfig` per VM (`none` = that fetch failed). -/
def mergeKubeconfigsCmd {V P : Type} [Inhabited P] (vms : List VM)
    (fetchConfig : VM → Option (KubeConfig V P)) : Except CliErr (KubeConfig V P) :=
  if vms.isEmpty then .error .noClustersFound
  else
    let kubeconfigs := vms.filterMap fetchConfig
    if kubeconfigs.isEmpty then .error .noKubeconfigs
    else
      match MergeKubeconfigs kubeconfigs with
      | .ok merged => .ok merged
      | .error e => .error (.mergeFailed e)

/-- Claim C10: the merge command never reaches `MergeKubeconfigs` with an
empty list — the empty-input merge error cannot surface from this caller, and
when every per-VM fetch fails (with VMs present) the own error of the command is
returned first. -/
theorem mergeCmd_empty_merge_unreachable {V P : Type} [Inhabited P] (vms : List VM)
    (fetchConfig : VM → Option (KubeConfig V P)) :
    mergeKubeconfigsCmd vms fetchConfig ≠ .error (.mergeFailed .emptyInput)
    ∧ (vms ≠ [] → vms.filterMap fetchConfig = [] →
        mergeKubeconfigsCmd vms fetchConfig = .error .noKubeconfigs) := by
  constructor
  · unfold mergeKubeconfigsCmd
    by_cases hv : vms.isEmpty
    · simp [hv]
    · simp only [hv, if_false]
      by_cases hk : (vms.filterMap fetchConfig).isEmpty
      · simp [hk]
      · simp only [hk, if_false]
        unfold MergeKubeconfigs
        simp [hk]
  · intro hne hempty
    unfold mergeKubeconfigsCmd
    have hv : vms.isEmpty = false := by
      cases vms with
      | nil => exact absurd rfl hne
      | cons a l => rfl
    simp [hv, hempty]

/-- Witness for claim C10: one managed VM whose fetch fails — the command
returns its own error, not the empty-input error of the merge module. -/
theorem mergeCmd_empty_merge_unreachable_witness :
    mergeKubeconfigsCmd (V := Nat) (P := Nat) [vmFoo] (fun _ => none)
      = .error .noKubeconfigs := by
  have h := mergeCmd_empty_merge_unreachable (V := Nat) (P := Nat) [vmFoo] (fun _ => none)
  exact h.2 (List.cons_ne_nil _ _) rfl
